import Mathlib

/-!
# Verification of the quantshit low-latency trading core

Shallow embedding of the C++ sources under `src/cpp` and proofs about them.

Modelling conventions, used throughout:

* Threads are modelled sequentially: each worker-loop body becomes a pure
  state-transition function, and a run of the system is a fold of such
  transitions over an explicit list of operations.  Callback invocations are
  returned as explicit event lists instead of being side effects.
* C++ `double` prices, sizes and quantities are modelled as `Rat` (exact
  rationals).  Every property proved here depends only on comparisons and
  on arithmetic whose outcome is unchanged by the (tiny) rounding error of
  IEEE-754 doubles at the concrete inputs used, so the rational model is
  faithful for these claims.  The Kalshi binary parser, whose claims do not
  depend on numeric values at all, keeps prices as raw 64-bit big-endian
  byte patterns (`Nat`).
* Machine indices (`size_t` head/tail of the ring buffers) are modelled as
  `Nat` kept below the capacity, exactly as the source stores them
  (`(x + 1) & MASK`); for a power-of-two capacity the source mask
  `x &&& (Capacity - 1)` equals `x % Capacity` (`and_mask_eq_mod` below).
* `std::map` with a comparator is modelled as an association list kept
  sorted by that comparator; `std::unordered_map` as a functional map
  `key → Option value` (or an association list where iteration totals are
  needed).
-/

namespace Quantshit

/-- `Protocol` enumeration, packet_normalizer.hpp lines 25-34. -/
inductive Protocol where
  | UNKNOWN
  | KALSHI_REST
  | KALSHI_WS
  | POLYMARKET_REST
  | POLYMARKET_WS
  | UNISWAP_V3
  | DYDX
  | CUSTOM_DEX
deriving DecidableEq, Repr

/-- `Side` enumeration, packet_normalizer.hpp line 39. -/
inductive Side where
  | BUY
  | SELL
deriving DecidableEq, Repr

/-! ## SPSC lock-free queue (core/lock_free_queue.hpp, lines 27-123)

Sequential model of `LockFreeQueue<T, Capacity>`.  The source stores the
head and tail indices already wrapped (`(x + 1) & MASK` with
`MASK = Capacity - 1`); the static_assert makes `Capacity` a power of two,
so the mask is `% Capacity` (`and_mask_eq_mod`).  One slot is reserved to
distinguish full from empty. -/

structure LockFreeQueue (C : Nat) (α : Type) where
  head : Nat
  tail : Nat
  buf : Nat → α

namespace LockFreeQueue

variable {C : Nat} {α : Type}

/-- Constructor: `head_(0), tail_(0)`, buffer default-initialised. -/
def init (C : Nat) (d : α) : LockFreeQueue C α :=
  { head := 0, tail := 0, buf := fun _ => d }

/-- `try_push`, lines 50-66: compute `next_tail`, fail when it equals the
head, else store at the current tail and publish. -/
def try_push (s : LockFreeQueue C α) (v : α) : Bool × LockFreeQueue C α :=
  let next_tail := (s.tail + 1) % C
  if next_tail = s.head then (false, s)
  else (true, { s with buf := fun i => if i = s.tail then v else s.buf i,
                       tail := next_tail })

/-- `try_pop`, lines 72-86: fail when head equals tail, else read the slot
at the head and advance the head. -/
def try_pop (s : LockFreeQueue C α) : Option α × LockFreeQueue C α :=
  if s.head = s.tail then (none, s)
  else (some (s.buf s.head), { s with head := (s.head + 1) % C })

/-- `size()`, lines 99-103: `(tail - head) & MASK` in `size_t` arithmetic;
with `head, tail < C` this equals `(tail + C - head) % C`. -/
def size (s : LockFreeQueue C α) : Nat := (s.tail + C - s.head) % C

/-- The buffered values, oldest first: the slots from `head` (inclusive)
to `tail` (exclusive), in ring order. -/
def contents (s : LockFreeQueue C α) : List α :=
  (List.range s.size).map fun i => s.buf ((s.head + i) % C)

/-- Well-formedness: the stored indices are wrapped below the capacity,
as the source maintains. -/
def Wf (s : LockFreeQueue C α) : Prop := s.head < C ∧ s.tail < C

/-- One producer/consumer operation on the queue, for sequential runs. -/
inductive SpscOp (α : Type) where
  | push (v : α)
  | pop

/-- Run a sequence of operations from a state.  Returns the final state,
the list of values accepted by `try_push`, and the list of values
returned by `try_pop`, each in operation order. -/
def run : LockFreeQueue C α → List (SpscOp α) → LockFreeQueue C α × List α × List α
  | s, [] => (s, [], [])
  | s, SpscOp.push v :: rest =>
      ((run (s.try_push v).2 rest).1,
       (if (s.try_push v).1 then [v] else []) ++ (run (s.try_push v).2 rest).2.1,
       (run (s.try_push v).2 rest).2.2)
  | s, SpscOp.pop :: rest =>
      ((run s.try_pop.2 rest).1,
       (run s.try_pop.2 rest).2.1,
       s.try_pop.1.toList ++ (run s.try_pop.2 rest).2.2)

end LockFreeQueue

/-! ## Normalized message types (network/packet_normalizer.hpp, lines 44-119)

Prices and sizes as exact rationals (see the header comment). -/

/-- `MarketDataUpdate`, packet_normalizer.hpp lines 44-58. -/
structure MarketDataUpdate where
  source : Protocol
  market_id : String
  symbol : String
  bid_price : Rat
  ask_price : Rat
  bid_size : Rat
  ask_size : Rat
  last_price : Rat
  volume_24h : Rat
  timestamp_ns : Int
  sequence : Nat
deriving DecidableEq

/-- `BookLevel`, packet_normalizer.hpp lines 63-67. -/
structure BookLevel where
  price : Rat
  size : Rat
  timestamp_ns : Int
deriving DecidableEq

/-- `OrderBookSnapshot`, packet_normalizer.hpp lines 72-81. -/
structure OrderBookSnapshot where
  source : Protocol
  market_id : String
  bids : List BookLevel
  asks : List BookLevel
  timestamp_ns : Int
  sequence : Nat
deriving DecidableEq

/-- `TradeEvent`, packet_normalizer.hpp lines 86-96. -/
structure TradeEvent where
  source : Protocol
  market_id : String
  trade_id : String
  aggressor_side : Side
  price : Rat
  size : Rat
  timestamp_ns : Int
deriving DecidableEq

/-- `OrderFill`, packet_normalizer.hpp lines 101-113. -/
structure OrderFill where
  source : Protocol
  order_id : String
  market_id : String
  side : Side
  price : Rat
  filled_size : Rat
  remaining_size : Rat
  is_complete : Bool
  timestamp_ns : Int
deriving DecidableEq

/-- `NormalizedMessage` variant, packet_normalizer.hpp lines 118-119. -/
inductive NormalizedMessage where
  | update (u : MarketDataUpdate)
  | book (b : OrderBookSnapshot)
  | trade (t : TradeEvent)
  | fill (f : OrderFill)
deriving DecidableEq

/-- Default-constructed `NormalizedMessage` (first variant, value-initialised),
used only to fill unused ring-buffer slots. -/
def defaultNormalizedMessage : NormalizedMessage :=
  NormalizedMessage.update
    { source := Protocol.UNKNOWN, market_id := "", symbol := "", bid_price := 0,
      ask_price := 0, bid_size := 0, ask_size := 0, last_price := 0,
      volume_24h := 0, timestamp_ns := 0, sequence := 0 }

/-! ## Order book (engine/market_data_handler.hpp, lines 29-138)

`BookSide` stores its levels in
`std::map<double, double, std::greater<double>>` (line 79): one comparator
for BOTH sides, so the association list here is kept sorted strictly
DESCENDING by price for bids and asks alike, exactly as the source map
iterates. -/

/-- Insert into a price-descending association list, replacing an equal
key, as `levels_[price] = size` does in the greater-ordered map. -/
def insertDesc : List (Rat × Rat) → Rat → Rat → List (Rat × Rat)
  | [], p, s => [(p, s)]
  | (q, t) :: rest, p, s =>
    if p > q then (p, s) :: (q, t) :: rest
    else if p = q then (p, s) :: rest
    else (q, t) :: insertDesc rest p s

/-- `BookSide`, market_data_handler.hpp lines 29-80. -/
structure BookSide where
  levels_ : List (Rat × Rat)
deriving DecidableEq

namespace BookSide

/-- `update`, lines 31-37: erase on `size <= 0`, else insert/overwrite. -/
def update (b : BookSide) (price size : Rat) : BookSide :=
  if size ≤ 0 then { levels_ := b.levels_.filter (fun l => decide (l.1 ≠ price)) }
  else { levels_ := insertDesc b.levels_ price size }

/-- `best_price`, lines 39-43: 0 when empty, else the first key in map
iteration order (the LARGEST price, since the comparator is `greater`). -/
def best_price (b : BookSide) : Rat :=
  match b.levels_ with
  | [] => 0
  | l :: _ => l.1

def clear (_b : BookSide) : BookSide := { levels_ := [] }

def empty (b : BookSide) : Bool := b.levels_.isEmpty

def depth (b : BookSide) : Nat := b.levels_.length

end BookSide

/-- `OrderBook`, market_data_handler.hpp lines 85-138. -/
structure OrderBook where
  market_id_ : String
  bids_ : BookSide
  asks_ : BookSide
  sequence_ : Nat
  last_update_ns_ : Int
deriving DecidableEq

namespace OrderBook

def mk0 (market_id : String) : OrderBook :=
  { market_id_ := market_id, bids_ := { levels_ := [] }, asks_ := { levels_ := [] },
    sequence_ := 0, last_update_ns_ := 0 }

/-- `apply`, lines 101-114: clear both sides, repopulate from the
snapshot levels, then take `sequence` and `timestamp_ns` from it. -/
def apply (ob : OrderBook) (snapshot : OrderBookSnapshot) : OrderBook :=
  { ob with
    bids_ := snapshot.bids.foldl (fun b l => b.update l.price l.size) (ob.bids_.clear),
    asks_ := snapshot.asks.foldl (fun b l => b.update l.price l.size) (ob.asks_.clear),
    sequence_ := snapshot.sequence,
    last_update_ns_ := snapshot.timestamp_ns }

def best_bid (ob : OrderBook) : Rat := ob.bids_.best_price

def best_ask (ob : OrderBook) : Rat := ob.asks_.best_price

def mid_price (ob : OrderBook) : Rat := (ob.best_bid + ob.best_ask) / 2

def spread (ob : OrderBook) : Rat := ob.best_ask - ob.best_bid

def spread_bps (ob : OrderBook) : Rat :=
  let mid := ob.mid_price
  if mid > 0 then (ob.spread / mid) * 10000 else 0

end OrderBook

/-- `Quote`, market_data_handler.hpp lines 143-156. -/
structure Quote where
  market_id : String
  source : Protocol
  bid_price : Rat
  bid_size : Rat
  ask_price : Rat
  ask_size : Rat
  timestamp_ns : Int
deriving DecidableEq

def Quote.mid_price (q : Quote) : Rat := (q.bid_price + q.ask_price) / 2

def Quote.spread (q : Quote) : Rat := q.ask_price - q.bid_price

/-! ## Market data handler (engine/market_data_handler.hpp, lines 161-352) -/

/-- `MarketDataHandler::Stats`, lines 246-252. -/
structure MarketDataHandlerStats where
  quotes_received : Nat
  trades_received : Nat
  books_received : Nat
  queue_drops : Nat
  avg_processing_latency_ns : Int
deriving DecidableEq

/-- Sequential state of `MarketDataHandler`: the inbound ring
(`LockFreeQueue<NormalizedMessage, 65536>`, line 339), the quote and book
maps, and the statistics counters. -/
structure MarketDataHandler where
  update_queue_ : LockFreeQueue 65536 NormalizedMessage
  quotes_ : String → Option Quote
  books_ : String → Option OrderBook
  stats_ : MarketDataHandlerStats

namespace MarketDataHandler

def init : MarketDataHandler :=
  { update_queue_ := LockFreeQueue.init 65536 defaultNormalizedMessage,
    quotes_ := fun _ => none, books_ := fun _ => none,
    stats_ := { quotes_received := 0, trades_received := 0, books_received := 0,
                queue_drops := 0, avg_processing_latency_ns := 0 } }

/-- `on_message`, line 207: `update_queue_.try_push(msg);` — the Boolean
result is discarded and nothing else happens (in particular no statistics
counter is touched). -/
def on_message (h : MarketDataHandler) (msg : NormalizedMessage) : MarketDataHandler :=
  { h with update_queue_ := (h.update_queue_.try_push msg).2 }

/-- `get_quote`, lines 212-216. -/
def get_quote (h : MarketDataHandler) (market_id : String) : Option Quote :=
  h.quotes_ market_id

end MarketDataHandler

/-! ## Arbitrage detector (engine/arbitrage_detector.hpp) -/

/-- `ArbitrageOpportunity`, arbitrage_detector.hpp lines 25-46. -/
structure ArbitrageOpportunity where
  market_id : String
  buy_venue : Protocol
  sell_venue : Protocol
  buy_price : Rat
  sell_price : Rat
  max_size : Rat
  spread : Rat
  spread_bps : Rat
  expected_profit : Rat
  profit_after_fees : Rat
  detected_at_ns : Int
  quote_age_ns : Int
  confidence : Rat
  stale : Bool
deriving DecidableEq

/-- `ArbitrageConfig`, arbitrage_detector.hpp lines 51-60. -/
structure ArbitrageConfig where
  min_spread_bps : Rat := 10
  min_profit : Rat := 1
  max_quote_age_ns : Int := 100000000
  kalshi_fee_bps : Rat := 7
  polymarket_fee_bps : Rat := 0
  tracked_markets : List String := []

/-- `get_venue_fee`, lines 261-272. -/
def get_venue_fee (cfg : ArbitrageConfig) (venue : Protocol) : Rat :=
  match venue with
  | Protocol.KALSHI_WS => cfg.kalshi_fee_bps
  | Protocol.KALSHI_REST => cfg.kalshi_fee_bps
  | Protocol.POLYMARKET_WS => cfg.polymarket_fee_bps
  | Protocol.POLYMARKET_REST => cfg.polymarket_fee_bps
  | _ => 0

/-- `check_pair`, lines 188-259.  `get_quote` is the handler lookup; `now`
is the ambient `now_ns()` value.  The venue offsets 0.998 and 1.002 are the
exact rationals 499/500 and 501/500. -/
def check_pair (get_quote : String → Option Quote) (cfg : ArbitrageConfig)
    (now : Int) (market_id : String) (venue_a venue_b : Protocol) :
    Option ArbitrageOpportunity :=
  match get_quote market_id with
  | none => none
  | some quote =>
    let quote_age : Int := now - quote.timestamp_ns
    let venue_a_bid := quote.bid_price * (499 / 500 : Rat)
    let venue_a_ask := quote.ask_price
    let venue_b_bid := quote.bid_price
    let venue_b_ask := quote.ask_price * (501 / 500 : Rat)
    let spread_1 := venue_b_bid - venue_a_ask
    let spread_2 := venue_a_bid - venue_b_ask
    let direction : Option (Protocol × Protocol × Rat × Rat × Rat) :=
      if spread_1 > spread_2 ∧ spread_1 > 0 then
        some (venue_a, venue_b, venue_a_ask, venue_b_bid, spread_1)
      else if spread_2 > 0 then
        some (venue_b, venue_a, venue_b_ask, venue_a_bid, spread_2)
      else none
    match direction with
    | none => none
    | some (bv, sv, bp, sp, spr) =>
      let mid_price := (bp + sp) / 2
      let spread_bps := (spr / mid_price) * 10000
      let max_size := min quote.bid_size quote.ask_size
      let expected_profit := spr * max_size
      let fee_buy := get_venue_fee cfg bv * bp * max_size / 10000
      let fee_sell := get_venue_fee cfg sv * sp * max_size / 10000
      let profit_after_fees := expected_profit - fee_buy - fee_sell
      let confidence := max 0 (1 - (quote_age : Rat) / (cfg.max_quote_age_ns : Rat))
      if spread_bps < cfg.min_spread_bps ∨ profit_after_fees < cfg.min_profit then
        none
      else
        some { market_id := market_id, buy_venue := bv, sell_venue := sv,
               buy_price := bp, sell_price := sp, max_size := max_size,
               spread := spr, spread_bps := spread_bps,
               expected_profit := expected_profit,
               profit_after_fees := profit_after_fees,
               detected_at_ns := now, quote_age_ns := quote_age,
               confidence := confidence,
               stale := decide (quote_age > cfg.max_quote_age_ns) }

/-- `check_market`, lines 94-113: look up the quote, check the single
hard-coded venue pair, keep the opportunity when its `spread_bps` clears
the configured minimum. -/
def check_market (get_quote : String → Option Quote) (cfg : ArbitrageConfig)
    (now : Int) (market_id : String) : List ArbitrageOpportunity :=
  match get_quote market_id with
  | none => []
  | some _ =>
    match check_pair get_quote cfg now market_id Protocol.KALSHI_WS
        Protocol.POLYMARKET_WS with
    | some opp => if opp.spread_bps ≥ cfg.min_spread_bps then [opp] else []
    | none => []

/-! ## Latency statistics (core/timing.hpp, lines 87-185) -/

/-- Insertion into an ascending list. -/
def insertAsc (x : Int) : List Int → List Int
  | [] => [x]
  | y :: rest => if x ≤ y then x :: y :: rest else y :: insertAsc x rest

/-- Ascending sort; models the observable result of
`std::sort(samples_.begin(), samples_.end())` (duplicates of equal
integers are indistinguishable, so the result is canonical). -/
def sortAsc (l : List Int) : List Int := l.foldr insertAsc []

/-- `LatencyStats` private state, timing.hpp lines 179-184. -/
structure LatencyStats where
  samples_ : List Int
  sum_ : Int
  min_ : Int
  max_ : Int
  sorted_ : Bool
deriving DecidableEq

namespace LatencyStats

/-- Fresh accumulator: `sum_ = 0`, `min_ = INT64_MAX`, `max_ = 0`,
`sorted_ = false`. -/
def init : LatencyStats :=
  { samples_ := [], sum_ := 0, min_ := 9223372036854775807, max_ := 0,
    sorted_ := false }

/-- `record`, lines 93-101: append the sample and maintain sum/min/max.
Note: the source does NOT touch `sorted_` here. -/
def record (st : LatencyStats) (latency_ns : Int) : LatencyStats :=
  { st with
    samples_ := st.samples_ ++ [latency_ns],
    sum_ := st.sum_ + latency_ns,
    min_ := if latency_ns < st.min_ then latency_ns else st.min_,
    max_ := if latency_ns > st.max_ then latency_ns else st.max_ }

/-- `percentile`, lines 128-140: lazily sort once (`sorted_` flag), then
index at `static_cast<size_t>(p * (size - 1))`, i.e. the floor. -/
def percentile (st : LatencyStats) (p : Rat) : Int × LatencyStats :=
  if st.samples_.isEmpty then (0, st)
  else
    let st2 := if !st.sorted_ then
        { st with samples_ := sortAsc st.samples_, sorted_ := true }
      else st
    let idx := (p * ((st2.samples_.length : Rat) - 1)).floor.toNat
    (st2.samples_.getD idx 0, st2)

end LatencyStats

/-! ## Kalshi binary parser (network/packet_normalizer.hpp, lines 186-300)

Packets are byte lists (`Nat` values below 256; the claims settled here do
not depend on the byte range).  Multi-byte fields are big-endian (network
byte order); doubles are kept as their raw 8-byte big-endian patterns.
Every raw pointer read of the source is modelled by `readChk`, which
FAILS (`Except.error`) if the read would touch an index past the end of
the data — proving the parser never returns `Except.error` is exactly the
no-out-of-bounds-read property. -/

namespace KParse

/-- Instrumented read of `len` bytes at offset `off`:
errors when the read would go out of bounds. -/
def readChk (data : List Nat) (off len : Nat) : Except Unit (List Nat) :=
  if off + len ≤ data.length then Except.ok ((data.drop off).take len)
  else Except.error ()

/-- Big-endian value of a byte list (`ntoh16` / `ntoh32` / `ntoh64`). -/
def beVal (bytes : List Nat) : Nat := bytes.foldl (fun acc b => acc * 256 + b) 0

/-- Parsed quote (`MarketDataUpdate` fields filled by `parse_quote`);
prices and sizes as raw 64-bit big-endian patterns. -/
structure KQuote where
  market_id : List Nat
  bid_price : Nat
  ask_price : Nat
  bid_size : Nat
  ask_size : Nat
  sequence : Nat
  timestamp_ns : Int
deriving DecidableEq

/-- Parsed trade (`TradeEvent` fields filled by `parse_trade`). -/
structure KTrade where
  market_id : List Nat
  trade_id : String
  aggressor_side : Side
  price : Nat
  size : Nat
  timestamp_ns : Int
deriving DecidableEq

/-- One parsed book level (raw patterns). -/
structure KBookLevel where
  price : Nat
  size : Nat
deriving DecidableEq

/-- Parsed book snapshot (`OrderBookSnapshot` fields filled by `parse_book`). -/
structure KBook where
  market_id : List Nat
  bids : List KBookLevel
  asks : List KBookLevel
  sequence : Nat
  timestamp_ns : Int
deriving DecidableEq

/-- The message alternatives `KalshiParser::parse` can produce. -/
inductive KMsg where
  | quote (q : KQuote)
  | trade (t : KTrade)
  | book (b : KBook)
deriving DecidableEq

/-- `parse_quote`, lines 215-236: needs 56 bytes; market_id at 8 (16B),
doubles at 24/32/40/48. -/
def parse_quote (data : List Nat) (ts : Int) (seq : Nat) :
    Except Unit (Option KMsg) :=
  if data.length < 56 then Except.ok none
  else do
    let mid ← readChk data 8 16
    let bp ← readChk data 24 8
    let ap ← readChk data 32 8
    let bs ← readChk data 40 8
    let asz ← readChk data 48 8
    Except.ok (some (KMsg.quote
      { market_id := mid, bid_price := beVal bp, ask_price := beVal ap,
        bid_size := beVal bs, ask_size := beVal asz, sequence := seq,
        timestamp_ns := ts }))

/-- `parse_trade`, lines 238-255: needs 48 bytes; market_id at 8 (16B),
aggressor byte at 24, price at 32, size at 40. -/
def parse_trade (data : List Nat) (ts : Int) (seq : Nat) :
    Except Unit (Option KMsg) :=
  if data.length < 48 then Except.ok none
  else do
    let mid ← readChk data 8 16
    let aggr ← readChk data 24 1
    let pr ← readChk data 32 8
    let sz ← readChk data 40 8
    Except.ok (some (KMsg.trade
      { market_id := mid, trade_id := toString seq,
        aggressor_side := if beVal aggr = 0 then Side.BUY else Side.SELL,
        price := beVal pr, size := beVal sz, timestamp_ns := ts }))

/-- The level loops of `parse_book`, lines 277-296: parse up to `count`
16-byte levels starting at `offset`, stopping early (without error) when
fewer than 16 bytes remain. -/
def parse_levels (data : List Nat) : Nat → Nat → Except Unit (List KBookLevel × Nat)
  | 0, offset => Except.ok ([], offset)
  | n + 1, offset =>
    if offset + 16 ≤ data.length then do
      let pr ← readChk data offset 8
      let sz ← readChk data (offset + 8) 8
      let (rest, off2) ← parse_levels data n (offset + 16)
      Except.ok ({ price := beVal pr, size := beVal sz } :: rest, off2)
    else Except.ok ([], offset)

/-- `parse_book`, lines 257-299: needs 32 bytes; market_id at 8 (16B),
level counts at 24 and 26, levels from offset 28. -/
def parse_book (data : List Nat) (ts : Int) (seq : Nat) :
    Except Unit (Option KMsg) :=
  if data.length < 32 then Except.ok none
  else do
    let mid ← readChk data 8 16
    let bl ← readChk data 24 2
    let al ← readChk data 26 2
    let (bids, off1) ← parse_levels data (beVal bl) 28
    let (asks, _off2) ← parse_levels data (beVal al) off1
    Except.ok (some (KMsg.book
      { market_id := mid, bids := bids, asks := asks, sequence := seq,
        timestamp_ns := ts }))

/-- `KalshiParser::parse`, lines 190-212: needs an 8-byte header
`[u16 msg_type][u16 flags][u32 sequence]`, then dispatches on `msg_type`;
unknown types yield empty. -/
def parse (data : List Nat) (ts : Int) : Except Unit (Option KMsg) :=
  if data.length < 8 then Except.ok none
  else do
    let mt ← readChk data 0 2
    let _flags ← readChk data 2 2
    let sq ← readChk data 4 4
    let msg_type := beVal mt
    let sequence := beVal sq
    if msg_type = 1 then parse_quote data ts sequence
    else if msg_type = 2 then parse_trade data ts sequence
    else if msg_type = 3 then parse_book data ts sequence
    else Except.ok none

/-- The `msg_type` field of a packet (big-endian first two bytes). -/
def msg_type_of (data : List Nat) : Nat := beVal (data.take 2)

/-- Minimum total packet length required for each recognised `msg_type`
(8-byte header included): 56 for quote 0x0001, 48 for trade 0x0002, 32
for book 0x0003; unrecognised types have no minimum. -/
def min_total : Nat → Option Nat
  | 1 => some 56
  | 2 => some 48
  | 3 => some 32
  | _ => none

end KParse

/-! ## Execution engine (engine/execution_engine.hpp) -/

/-- `OrderStatus`, execution_engine.hpp lines 28-37. -/
inductive OrderStatus where
  | PENDING
  | SUBMITTED
  | ACKNOWLEDGED
  | PARTIALLY_FILLED
  | FILLED
  | CANCELLED
  | REJECTED
  | ERROR
deriving DecidableEq, Repr

/-- `OrderType`, execution_engine.hpp lines 42-48. -/
inductive OrderType where
  | MARKET
  | LIMIT
  | IOC
  | FOK
  | GTC
deriving DecidableEq, Repr

/-- `Order`, execution_engine.hpp lines 53-73 (`type` renamed `otype`). -/
structure Order where
  internal_id : Nat
  external_id : String
  market_id : String
  venue : Protocol
  side : Side
  otype : OrderType
  status : OrderStatus
  price : Rat
  quantity : Rat
  filled_quantity : Rat
  average_fill_price : Rat
  created_at_ns : Int
  submitted_at_ns : Int
  last_update_ns : Int
  error_message : String
deriving DecidableEq

/-- Default-constructed `Order` (uninitialised scalars modelled as
zeros), used only to fill unused ring-buffer slots. -/
def defaultOrder : Order :=
  { internal_id := 0, external_id := "", market_id := "",
    venue := Protocol.UNKNOWN, side := Side.BUY, otype := OrderType.MARKET,
    status := OrderStatus.PENDING, price := 0, quantity := 0,
    filled_quantity := 0, average_fill_price := 0, created_at_ns := 0,
    submitted_at_ns := 0, last_update_ns := 0, error_message := "" }

/-- `ExecutionReport`, execution_engine.hpp lines 78-89. -/
structure ExecutionReport where
  order_id : Nat
  external_id : String
  status : OrderStatus
  filled_quantity : Rat
  fill_price : Rat
  remaining_quantity : Rat
  timestamp_ns : Int
  message : String
deriving DecidableEq

/-- `OrderRequest`, execution_engine.hpp lines 94-104.  The
`std::function` callback is modelled by its presence (`has_callback`);
its invocations are returned as explicit report lists. -/
structure OrderRequest where
  market_id : String
  venue : Protocol
  side : Side
  otype : OrderType
  price : Rat
  quantity : Rat
  has_callback : Bool

/-- `RiskCheckResult`, execution_engine.hpp lines 109-112. -/
structure RiskCheckResult where
  passed : Bool
  reason : String
deriving DecidableEq

/-- `RiskLimits`, execution_engine.hpp lines 117-123 (defaults from the
source; `max_orders_per_second` is a C++ `int`). -/
structure RiskLimits where
  max_order_size : Rat := 10000
  max_position_per_market : Rat := 50000
  max_total_position : Rat := 200000
  max_orders_per_second : Int := 10
  max_loss_per_day : Rat := 1000

/-- `PositionTracker`, execution_engine.hpp lines 128-158: the
`unordered_map<string, double>` as an association list (iteration order
does not matter for any quantity computed from it). -/
structure PositionTracker where
  positions_ : List (String × Rat)

/-- `positions_[market_id] += delta` — default-inserts 0 then adds. -/
def updatePos : List (String × Rat) → String → Rat → List (String × Rat)
  | [], m, d => [(m, d)]
  | (k, v) :: rest, m, d =>
    if k = m then (k, v + d) :: rest else (k, v) :: updatePos rest m d

namespace PositionTracker

def update (p : PositionTracker) (market_id : String) (delta : Rat) :
    PositionTracker :=
  { positions_ := updatePos p.positions_ market_id delta }

/-- `get`, lines 135-139: the stored value, or 0 when absent. -/
def get (p : PositionTracker) (market_id : String) : Rat :=
  match p.positions_.lookup market_id with
  | some v => v
  | none => 0

/-- `total`, lines 141-148: sum of absolute positions. -/
def total (p : PositionTracker) : Rat :=
  p.positions_.foldl (fun acc kv => acc + |kv.2|) 0

end PositionTracker

/-- `RiskManager::check`, execution_engine.hpp lines 167-202, as a pure
function of the limits, the sliding window `orders_this_second_`, the
request, the positions, and the ambient `now_ns()` value.  Returns the
result and the updated window. -/
def riskCheck (limits : RiskLimits) (window : List Int) (req : OrderRequest)
    (positions : PositionTracker) (now : Int) : RiskCheckResult × List Int :=
  if req.quantity > limits.max_order_size then
    ({ passed := false, reason := "Order size exceeds limit" }, window)
  else
    let current_pos := positions.get req.market_id
    let new_pos := current_pos +
      (if req.side = Side.BUY then req.quantity else -req.quantity)
    if |new_pos| > limits.max_position_per_market then
      ({ passed := false, reason := "Would exceed position limit for market" },
       window)
    else if positions.total + req.quantity > limits.max_total_position then
      ({ passed := false, reason := "Would exceed total position limit" }, window)
    else
      let window2 := window.filter (fun t => decide (now - t ≤ 1000000000))
      if (window2.length : Int) ≥ limits.max_orders_per_second then
        ({ passed := false, reason := "Rate limit exceeded" }, window2)
      else
        ({ passed := true, reason := "" }, window2 ++ [now])

/-- `ExecutionEngine::Stats`, execution_engine.hpp lines 344-350. -/
structure EngineStats where
  orders_submitted : Nat
  orders_filled : Nat
  orders_rejected : Nat
  total_volume : Rat
  avg_latency_ns : Int
deriving DecidableEq

/-- Sequential state of `ExecutionEngine`: risk manager state, position
tracker, atomic id counter, the SPSC order queue
(`LockFreeQueue<Order, 16384>`, line 482), the active-order map, the
callback map (modelled by key presence), and the stats counters. -/
structure ExecutionEngine where
  risk_limits : RiskLimits
  risk_window : List Int
  positions_ : PositionTracker
  next_order_id_ : Nat
  order_queue_ : LockFreeQueue 16384 Order
  active_orders_ : Nat → Option Order
  callbacks_ : Nat → Bool
  stats_ : EngineStats

namespace ExecutionEngine

def init (limits : RiskLimits) : ExecutionEngine :=
  { risk_limits := limits, risk_window := [], positions_ := { positions_ := [] },
    next_order_id_ := 1,
    order_queue_ := LockFreeQueue.init 16384 defaultOrder,
    active_orders_ := fun _ => none, callbacks_ := fun _ => false,
    stats_ := { orders_submitted := 0, orders_filled := 0, orders_rejected := 0,
                total_volume := 0, avg_latency_ns := 0 } }

/-- `submit_order`, lines 271-305.  Returns the Boolean result, the new
state, and the reports delivered to the request callback (the source
rejection report sets only `status` and `message`; the other fields are
left uninitialised and modelled as zeros). -/
def submit_order (e : ExecutionEngine) (req : OrderRequest) (now : Int) :
    Bool × ExecutionEngine × List ExecutionReport :=
  let checked := riskCheck e.risk_limits e.risk_window req e.positions_ now
  if !checked.1.passed then
    let reports :=
      if req.has_callback then
        [{ order_id := 0, external_id := "", status := OrderStatus.REJECTED,
           filled_quantity := 0, fill_price := 0, remaining_quantity := 0,
           timestamp_ns := 0, message := checked.1.reason }]
      else []
    (false, { e with risk_window := checked.2 }, reports)
  else
    let order : Order :=
      { internal_id := e.next_order_id_, external_id := "",
        market_id := req.market_id, venue := req.venue, side := req.side,
        otype := req.otype, status := OrderStatus.PENDING, price := req.price,
        quantity := req.quantity, filled_quantity := 0,
        average_fill_price := 0, created_at_ns := now, submitted_at_ns := 0,
        last_update_ns := 0, error_message := "" }
    let callbacks2 :=
      if req.has_callback then
        fun i => if i = order.internal_id then true else e.callbacks_ i
      else e.callbacks_
    let pushed := e.order_queue_.try_push order
    (pushed.1,
     { e with risk_window := checked.2, next_order_id_ := e.next_order_id_ + 1,
              callbacks_ := callbacks2, order_queue_ := pushed.2 },
     [])

/-- One iteration of `order_loop`, lines 363-391: pop an order, mark it
`SUBMITTED`, insert it into the active-order map, count it.  Returns the
new state and the `order_callback_` invocations.  (`send_to_venue` has no
effect on engine state and is omitted.) -/
def process_order (e : ExecutionEngine) (now : Int) :
    ExecutionEngine × List Order :=
  let popped := e.order_queue_.try_pop
  match popped.1 with
  | none => ({ e with order_queue_ := popped.2 }, [])
  | some o =>
    let o2 := { o with status := OrderStatus.SUBMITTED, submitted_at_ns := now }
    ({ e with order_queue_ := popped.2,
              active_orders_ := fun i =>
                if i = o2.internal_id then some o2 else e.active_orders_ i,
              stats_ := { e.stats_ with
                orders_submitted := e.stats_.orders_submitted + 1 } },
     [o2])

/-- One iteration of `exec_loop`, lines 393-443, applied to one popped
report `r`: update the order found under `r.order_id` (status, filled
quantity, timestamp; on `FILLED` also stats counters and position), then
invoke the per-order callback if registered and erase it exactly on
`FILLED`, `CANCELLED` or `REJECTED`.  Returns the new state and the
per-order callback invocations `(order_id, report)`. -/
def process_report (e : ExecutionEngine) (r : ExecutionReport) :
    ExecutionEngine × List (Nat × ExecutionReport) :=
  let e1 :=
    match e.active_orders_ r.order_id with
    | some o =>
      let o2 := { o with status := r.status,
                         filled_quantity := r.filled_quantity,
                         last_update_ns := r.timestamp_ns }
      let e2 := { e with active_orders_ := fun i =>
        if i = r.order_id then some o2 else e.active_orders_ i }
      if r.status = OrderStatus.FILLED then
        { e2 with
          stats_ := { e2.stats_ with
            orders_filled := e2.stats_.orders_filled + 1,
            total_volume := e2.stats_.total_volume + r.filled_quantity },
          positions_ := e2.positions_.update o.market_id
            (if o.side = Side.BUY then r.filled_quantity else -r.filled_quantity) }
      else e2
    | none => e
  if e1.callbacks_ r.order_id then
    let callbacks2 :=
      if r.status = OrderStatus.FILLED ∨ r.status = OrderStatus.CANCELLED ∨
          r.status = OrderStatus.REJECTED then
        fun i => if i = r.order_id then false else e1.callbacks_ i
      else e1.callbacks_
    ({ e1 with callbacks_ := callbacks2 }, [(r.order_id, r)])
  else (e1, [])

end ExecutionEngine

/-- One engine event, for multi-step runs: a `submit_order` call, one
order-loop iteration, or one exec-loop iteration on a given report. -/
inductive EngineOp where
  | submit (req : OrderRequest) (now : Int)
  | procOrder (now : Int)
  | procReport (r : ExecutionReport)

/-- Apply one engine event to the state. -/
def ExecutionEngine.step (e : ExecutionEngine) : EngineOp → ExecutionEngine
  | EngineOp.submit req now => (e.submit_order req now).2.1
  | EngineOp.procOrder now => (e.process_order now).1
  | EngineOp.procReport r => (e.process_report r).1

/-- Run a sequence of engine events. -/
def ExecutionEngine.runSteps (e : ExecutionEngine) (ops : List EngineOp) :
    ExecutionEngine :=
  ops.foldl ExecutionEngine.step e

/-- Substring test on character lists, used to state message claims. -/
def listContainsSub (pat : List Char) : List Char → Bool
  | [] => pat.isEmpty
  | c :: t => pat.isPrefixOf (c :: t) || listContainsSub pat t

/-- Substring test on strings. -/
def strContainsSub (s pat : String) : Bool := listContainsSub pat.data s.data


/-- Freshness of an order id relative to an engine state: not in the
active-order map, not carried by any queued order, and below the atomic
id counter.  Holds for `next_order_id_` in every reachable state. -/
def EngineIdFresh (e : ExecutionEngine) (id : Nat) : Prop :=
  e.active_orders_ id = none ∧
  (∀ o ∈ e.order_queue_.contents, o.internal_id ≠ id) ∧
  id < e.next_order_id_

/-- Engine whose 16384-slot order queue is full (16383 buffered orders). -/
def c10_engine : ExecutionEngine :=
  { ExecutionEngine.init {} with
    order_queue_ := { head := 0, tail := 16383, buf := fun _ => defaultOrder } }

/-- Small order request that passes every default risk limit. -/
def c10_request : OrderRequest :=
  { market_id := "M", venue := Protocol.KALSHI_WS, side := Side.BUY,
    otype := OrderType.LIMIT, price := 1/2, quantity := 1,
    has_callback := true }

/-! ## Concrete inputs used by individual claims -/

/-- Book snapshot whose asks side has two distinct price levels
(0.52 = 13/25 and 0.60 = 3/5); exercises the asks ordering of
`BookSide`. -/
def c1_snapshot : OrderBookSnapshot :=
  { source := Protocol.KALSHI_WS, market_id := "M1",
    bids := [{ price := 1/2, size := 10, timestamp_ns := 0 }],
    asks := [{ price := 13/25, size := 10, timestamp_ns := 0 },
             { price := 3/5, size := 10, timestamp_ns := 0 }],
    timestamp_ns := 5, sequence := 1 }

/-- The quote of spec scenario 2: bid 0.50, ask 0.52, both sizes 1000,
fresh (timestamp 0). -/
def c3_quote : Quote :=
  { market_id := "M1", source := Protocol.KALSHI_WS, bid_price := 1/2,
    bid_size := 1000, ask_price := 13/25, ask_size := 1000, timestamp_ns := 0 }

/-- Handler quote map holding only the scenario quote under "M1". -/
def c3_quotes : String → Option Quote :=
  fun m => if m = "M1" then some c3_quote else none

/-- Detector configuration of spec scenario 2: `min_spread_bps = 10`,
`max_quote_age_ns` = 100 ms, Kalshi fee 7 bps, Polymarket fee 0 bps. -/
def c3_config : ArbitrageConfig :=
  { min_spread_bps := 10, min_profit := 1, max_quote_age_ns := 100000000,
    kalshi_fee_bps := 7, polymarket_fee_bps := 0, tracked_markets := [] }

/-- Latency accumulator after `record 5; record 1; percentile 1.0;
record 0` — the final `record` follows a percentile query. -/
def c4_state : LatencyStats :=
  ((((LatencyStats.init.record 5).record 1).percentile 1).2).record 0

/-- A truncated Kalshi quote frame: msg_type 0x0001 but only 40 bytes
(minimum is 56). -/
def c6_packet : List Nat := [0, 1, 0, 0, 0, 0, 0, 0] ++ List.replicate 32 0

/-- Engine with `max_order_size = 100` (spec scenario 3). -/
def c7_engine : ExecutionEngine := ExecutionEngine.init { max_order_size := 100 }

/-- Order request with `quantity = 200` and a callback (spec scenario 3). -/
def c7_request : OrderRequest :=
  { market_id := "M", venue := Protocol.KALSHI_WS, side := Side.BUY,
    otype := OrderType.LIMIT, price := 1/2, quantity := 200,
    has_callback := true }

/-- Active Buy order with id 1 on market "M" (spec scenario 4). -/
def c8_order : Order :=
  { defaultOrder with internal_id := 1, market_id := "M", side := Side.BUY,
                      status := OrderStatus.SUBMITTED, quantity := 10 }

/-- Engine whose active-order map holds `c8_order` under id 1. -/
def c8_engine : ExecutionEngine :=
  { ExecutionEngine.init {} with
    active_orders_ := fun i => if i = 1 then some c8_order else none }

/-- Fill report for order 1: status `FILLED`, `filled_quantity = 10`. -/
def c8_report : ExecutionReport :=
  { order_id := 1, external_id := "", status := OrderStatus.FILLED,
    filled_quantity := 10, fill_price := 1/2, remaining_quantity := 0,
    timestamp_ns := 9, message := "" }

/-- Engine whose callback map has an entry under id 7. -/
def c9_engine : ExecutionEngine :=
  { ExecutionEngine.init {} with callbacks_ := fun i => i == 7 }

/-- Execution report with the terminal status `ERROR` for order 7. -/
def c9_report : ExecutionReport :=
  { order_id := 7, external_id := "", status := OrderStatus.ERROR,
    filled_quantity := 0, fill_price := 0, remaining_quantity := 0,
    timestamp_ns := 3, message := "venue error" }

/-! ## Theorems -/

/-! ## Modular-arithmetic helpers for the ring buffers -/

/-- Justifies modelling the source mask `x &&& (Capacity - 1)` as
`x % Capacity`: for a power-of-two capacity the two agree. -/
theorem and_mask_eq_mod (k x : Nat) : x &&& (2 ^ k - 1) = x % 2 ^ k := by
  simp [Nat.and_pow_two_sub_one_eq_mod]

/-- Reduce `a % C` to an if-expression when `a < 2*C`; lets `omega` finish
all the wrap-around index reasoning below. -/
theorem mod_small_cases (a C : Nat) (h : a < 2 * C) :
    a % C = if a < C then a else a - C := by
  by_cases hlt : a < C
  · simp [hlt, Nat.mod_eq_of_lt hlt]
  · have hge : C ≤ a := Nat.le_of_not_lt hlt
    have hsub : a - C < C := by omega
    have : a % C = (a - C) % C := (Nat.mod_eq_sub_mod hge).symm ▸ rfl
    simp [hlt, Nat.mod_eq_sub_mod hge, Nat.mod_eq_of_lt hsub]

namespace LockFreeQueue

variable {C : Nat} {α : Type}

theorem wf_init (hC : 0 < C) (d : α) : (init C d : LockFreeQueue C α).Wf :=
  ⟨hC, hC⟩

theorem size_init (d : α) : (init C d : LockFreeQueue C α).size = 0 := by
  simp [init, size, Nat.mod_self]

theorem contents_init (d : α) :
    (init C d : LockFreeQueue C α).contents = [] := by
  simp [contents, size_init]

/-- Closed form for `size` under well-formedness. -/
theorem size_eq (s : LockFreeQueue C α) (hs : s.Wf) :
    s.size = if s.head ≤ s.tail then s.tail - s.head else s.tail + C - s.head := by
  obtain ⟨h1, h2⟩ := hs
  rw [size, mod_small_cases _ _ (by omega)]
  split <;> split <;> omega

theorem size_lt (s : LockFreeQueue C α) (hC : 0 < C) : s.size < C :=
  Nat.mod_lt _ hC

theorem length_contents (s : LockFreeQueue C α) : s.contents.length = s.size := by
  simp [contents]

/-- The push guard `(tail + 1) % C = head` holds exactly when the queue
already buffers `C - 1` values. -/
theorem push_guard_iff (s : LockFreeQueue C α) (hs : s.Wf) :
    (s.tail + 1) % C = s.head ↔ s.size = C - 1 := by
  obtain ⟨h1, h2⟩ := hs
  rw [size_eq s ⟨h1, h2⟩, mod_small_cases _ _ (by omega)]
  split <;> split <;> omega

/-- The pop guard `head = tail` holds exactly when the queue is empty. -/
theorem pop_guard_iff (s : LockFreeQueue C α) (hs : s.Wf) :
    s.head = s.tail ↔ s.size = 0 := by
  obtain ⟨h1, h2⟩ := hs
  rw [size_eq s ⟨h1, h2⟩]
  split <;> omega

/-- The slot index of the i-th buffered value never equals the tail while
`i < size`. -/
theorem slot_ne_tail (s : LockFreeQueue C α) (hs : s.Wf) {i : Nat}
    (hi : i < s.size) : (s.head + i) % C ≠ s.tail := by
  obtain ⟨h1, h2⟩ := hs
  rw [size_eq s ⟨h1, h2⟩] at hi
  have hC : 0 < C := by omega
  have hiC : i < C := by split at hi <;> omega
  rw [mod_small_cases _ _ (by omega)]
  split at hi <;> split <;> omega

/-- The slot index one past the last buffered value is exactly the tail. -/
theorem slot_size_eq_tail (s : LockFreeQueue C α) (hs : s.Wf) :
    (s.head + s.size) % C = s.tail := by
  obtain ⟨h1, h2⟩ := hs
  rw [size_eq s ⟨h1, h2⟩]
  have hC : 0 < C := by omega
  by_cases h : s.head ≤ s.tail
  · simp only [h, if_pos]
    rw [Nat.add_sub_cancel' h, Nat.mod_eq_of_lt h2]
  · simp only [h, if_neg, Bool.false_eq_true, not_false_eq_true]
    have : s.head + (s.tail + C - s.head) = s.tail + C := by omega
    rw [this, Nat.add_mod_right, Nat.mod_eq_of_lt h2]

/-- Wrap-around arithmetic: a non-full push advances the size by one. -/
theorem wrap_push_size (C h t : Nat) (h1 : h < C) (h2 : t < C)
    (hguard : (t + 1) % C ≠ h) :
    ((t + 1) % C + C - h) % C = (t + C - h) % C + 1 := by
  rw [mod_small_cases (t + 1) C (by omega)] at hguard ⊢
  by_cases hlt : t + 1 < C
  · rw [if_pos hlt] at hguard ⊢
    rw [mod_small_cases (t + 1 + C - h) C (by omega),
        mod_small_cases (t + C - h) C (by omega)]
    split <;> split <;> omega
  · rw [if_neg hlt] at hguard ⊢
    rw [mod_small_cases (t + 1 - C + C - h) C (by omega),
        mod_small_cases (t + C - h) C (by omega)]
    split <;> split <;> omega

/-- Wrap-around arithmetic: a non-empty pop decreases the size by one. -/
theorem wrap_pop_size (C h t : Nat) (h1 : h < C) (h2 : t < C)
    (hne : h ≠ t) :
    (t + C - (h + 1) % C) % C + 1 = (t + C - h) % C := by
  rw [mod_small_cases (h + 1) C (by omega)]
  by_cases hlt : h + 1 < C
  · rw [if_pos hlt]
    rw [mod_small_cases (t + C - (h + 1)) C (by omega),
        mod_small_cases (t + C - h) C (by omega)]
    split <;> split <;> omega
  · rw [if_neg hlt]
    rw [mod_small_cases (t + C - (h + 1 - C)) C (by omega),
        mod_small_cases (t + C - h) C (by omega)]
    split <;> split <;> omega

/-- A successful push appends the value to the buffered contents. -/
theorem push_spec (s : LockFreeQueue C α) (hs : s.Wf) (v : α)
    (hfull : (s.tail + 1) % C ≠ s.head) :
    (s.try_push v).1 = true ∧
    (s.try_push v).2.Wf ∧
    (s.try_push v).2.contents = s.contents ++ [v] := by
  obtain ⟨h1, h2⟩ := hs
  have hC : 0 < C := by omega
  have hguard : ¬ ((s.tail + 1) % C = s.head) := hfull
  refine ⟨by simp [try_push, hguard], ?_, ?_⟩
  · simp only [try_push]
    rw [if_neg hguard]
    exact ⟨h1, Nat.mod_lt _ hC⟩
  have hsize_new : ((s.tail + 1) % C + C - s.head) % C = s.size + 1 :=
    wrap_push_size C s.head s.tail h1 h2 hfull
  simp only [try_push, hguard, if_neg, not_false_eq_true, contents, size]
  rw [hsize_new, List.range_succ, List.map_append, List.map_singleton]
  congr 1
  · apply List.map_congr_left
    intro i hi
    rw [List.mem_range] at hi
    have := slot_ne_tail s ⟨h1, h2⟩ hi
    simp [this]
  · rw [slot_size_eq_tail s ⟨h1, h2⟩]
    simp

/-- A failed push leaves the state unchanged. -/
theorem push_fail_spec (s : LockFreeQueue C α) (v : α)
    (hfull : (s.tail + 1) % C = s.head) :
    (s.try_push v).1 = false ∧ (s.try_push v).2 = s := by
  simp [try_push, hfull]

/-- A successful pop removes and returns the oldest buffered value. -/
theorem pop_spec (s : LockFreeQueue C α) (hs : s.Wf)
    (hne : s.head ≠ s.tail) :
    (s.try_pop).1 = some (s.buf s.head) ∧
    (s.try_pop).2.Wf ∧
    s.contents = s.buf s.head :: (s.try_pop).2.contents := by
  obtain ⟨h1, h2⟩ := hs
  have hC : 0 < C := by omega
  refine ⟨by simp [try_pop, hne], ?_, ?_⟩
  · simp only [try_pop]
    rw [if_neg hne]
    exact ⟨Nat.mod_lt _ hC, h2⟩
  have hsize_new : (s.tail + C - (s.head + 1) % C) % C + 1 = s.size :=
    wrap_pop_size C s.head s.tail h1 h2 hne
  rw [size] at hsize_new
  simp only [try_pop, hne, if_neg, not_false_eq_true, contents, size]
  rw [← hsize_new]
  rw [List.range_succ_eq_map, List.map_cons]
  congr 1
  · rw [Nat.add_zero, Nat.mod_eq_of_lt h1]
  · rw [List.map_map]
    apply List.map_congr_left
    intro i hi
    simp only [Function.comp_apply]
    congr 1
    rw [Nat.mod_add_mod]
    congr 1
    omega

/-- A failed pop (empty queue) leaves the state unchanged. -/
theorem pop_fail_spec (s : LockFreeQueue C α) (hempty : s.head = s.tail) :
    (s.try_pop).1 = none ∧ (s.try_pop).2 = s := by
  simp [try_pop, hempty]

theorem try_push_false_iff (s : LockFreeQueue C α) (v : α) :
    (s.try_push v).1 = false ↔ (s.tail + 1) % C = s.head := by
  by_cases hg : (s.tail + 1) % C = s.head
  · simp [try_push, hg]
  · simp [try_push, hg]

/-- Main run invariant: the initially buffered values followed by the
accepted pushes equal the popped values followed by the finally buffered
values. -/
theorem run_spec (ops : List (SpscOp α)) (s : LockFreeQueue C α) (hs : s.Wf) :
    (run s ops).1.Wf ∧
    s.contents ++ (run s ops).2.1 = (run s ops).2.2 ++ (run s ops).1.contents := by
  induction ops generalizing s with
  | nil => simpa [run] using hs
  | cons op rest ih =>
    cases op with
    | push v =>
      by_cases hg : (s.tail + 1) % C = s.head
      · obtain ⟨hb, hst⟩ := push_fail_spec s v hg
        obtain ⟨ihw, ihe⟩ := ih s hs
        simp only [run, hb, hst, Bool.false_eq_true, if_neg, not_false_eq_true,
          List.nil_append]
        exact ⟨ihw, ihe⟩
      · obtain ⟨hb, hwf, hcont⟩ := push_spec s hs v hg
        obtain ⟨ihw, ihe⟩ := ih _ hwf
        refine ⟨ihw, ?_⟩
        simp only [run, hb, if_pos]
        rw [← List.append_assoc, ← hcont]
        exact ihe
    | pop =>
      by_cases hg : s.head = s.tail
      · obtain ⟨hb, hst⟩ := pop_fail_spec s hg
        obtain ⟨ihw, ihe⟩ := ih s hs
        simp only [run, hb, hst, Option.toList_none, List.nil_append]
        exact ⟨ihw, ihe⟩
      · obtain ⟨hb, hwf, hcont⟩ := pop_spec s hs hg
        obtain ⟨ihw, ihe⟩ := ih _ hwf
        refine ⟨ihw, ?_⟩
        simp only [run, hb, Option.toList_some]
        rw [hcont, List.cons_append, ihe]
        rfl

end LockFreeQueue

attribute [local semireducible] Rat.add Rat.mul Rat.sub Rat.inv

/-! ### C1 — order-book snapshot: asks ordering -/

/-- C1: the claim fails on the code.  `BookSide` uses
`std::map<double, double, std::greater<double>>` for BOTH sides
(market_data_handler.hpp line 79), against its own comment on line 77
("for asks: ascending order").  Applying a snapshot whose ask prices are
0.52 and 0.60 leaves `best_ask() = 0.60`, the HIGHEST ask, strictly above
the snapshot's lowest ask 0.52 — `best_ask()` is not the lowest ask price
and the asks side is ordered descending. -/
theorem C1_best_ask_is_highest_not_lowest :
    ((OrderBook.mk0 "M1").apply c1_snapshot).best_ask = 3/5 ∧
    c1_snapshot.asks.map BookLevel.price = [13/25, 3/5] ∧
    ¬ ((OrderBook.mk0 "M1").apply c1_snapshot).best_ask ≤ 13/25 := by
  decide

/-! ### C2 — market-data handler: queue drops counter -/

/-- Helper: `on_message` never touches the statistics (the Boolean result
of `try_push` is discarded, market_data_handler.hpp line 207). -/
theorem on_message_preserves_stats (h : MarketDataHandler)
    (msg : NormalizedMessage) : (h.on_message msg).stats_ = h.stats_ := rfl

/-- Helper: feeding any message sequence leaves the statistics unchanged. -/
theorem on_message_foldl_stats (msgs : List NormalizedMessage)
    (h : MarketDataHandler) :
    (msgs.foldl MarketDataHandler.on_message h).stats_ = h.stats_ := by
  induction msgs generalizing h with
  | nil => rfl
  | cons m rest ih => rw [List.foldl_cons, ih, on_message_preserves_stats]

/-- C2: the claim fails on the code.  `on_message` is
`update_queue_.try_push(msg);` with the result discarded; no code path
ever increments `stats_.queue_drops`.  Feeding 65537 messages (one more
than the ring capacity 65536) into a fresh handler whose worker never
runs leaves `queue_drops = 0`, where the claim requires
`queue_drops ≥ 65537 − 65536 = 1`. -/
theorem C2_queue_drops_never_incremented :
    ((List.replicate 65537 defaultNormalizedMessage).foldl
        MarketDataHandler.on_message MarketDataHandler.init).stats_.queue_drops
      = 0 := by
  rw [on_message_foldl_stats]
  rfl

/-! ### C3 — arbitrage detection scenario -/

/-- C3 counterexample: at the scenario input (fresh quote bid 0.50 /
ask 0.52, sizes 1000, `min_spread_bps = 10`, Kalshi fee 7 bps,
Polymarket fee 0 bps), `check_market("M1")` does NOT return exactly one
opportunity. -/
theorem C3_counterexample :
    ¬ (check_market c3_quotes c3_config 0 "M1").length = 1 := by
  decide

/-- C3 amended: at that input `check_market("M1")` returns no opportunity
at all: under the venue-offset model the two direction spreads are
0.50 − 0.52 = −0.02 and 0.499 − 0.52104 = −0.02204, both nonpositive, so
`check_pair` returns empty. -/
theorem C3_amended_no_opportunity :
    check_market c3_quotes c3_config 0 "M1" = [] := by
  decide

/-! ### C4 — latency percentile cache invalidation -/

/-- C4: the claim fails on the code.  `record` (timing.hpp lines 93-101)
never resets `sorted_`, so after `record 5; record 1; percentile 1.0;
record 0` the accumulator believes its samples `[1, 5, 0]` are still
sorted; `percentile 1.0` then returns index
`floor(1·(3−1)) = 2` of the UNSORTED vector — the value 0 — whereas the
sorted samples `[0, 1, 5]` have 5 at index 2. -/
theorem C4_record_does_not_invalidate_sort :
    (c4_state.percentile 1).1 = 0 ∧
    c4_state.samples_ = [1, 5, 0] ∧
    c4_state.sorted_ = true ∧
    sortAsc c4_state.samples_ = [0, 1, 5] ∧
    ((1 : Rat) * ((c4_state.samples_.length : Rat) - 1)).floor.toNat = 2 ∧
    (c4_state.percentile 1).1 ≠ (sortAsc c4_state.samples_).getD 2 0 := by
  decide

/-! ### C7 — oversize order rejection -/

/-- C7: for every request whose quantity exceeds `max_order_size`,
`submit_order` fails the risk check first (its size check precedes all
others), returns false, delivers to the supplied callback exactly one
report with status `REJECTED` whose message "Order size exceeds limit"
contains "size", and leaves the active-order map (and the order queue)
untouched. -/
theorem C7_oversize_rejected (e : ExecutionEngine) (req : OrderRequest) (now : Int)
    (hq : req.quantity > e.risk_limits.max_order_size)
    (hcb : req.has_callback = true) :
    (e.submit_order req now).1 = false ∧
    (e.submit_order req now).2.2 =
      [{ order_id := 0, external_id := "", status := OrderStatus.REJECTED,
         filled_quantity := 0, fill_price := 0, remaining_quantity := 0,
         timestamp_ns := 0, message := "Order size exceeds limit" }] ∧
    strContainsSub "Order size exceeds limit" "size" = true ∧
    (e.submit_order req now).2.1.active_orders_ = e.active_orders_ ∧
    (e.submit_order req now).2.1.order_queue_ = e.order_queue_ := by
  have hrisk : riskCheck e.risk_limits e.risk_window req e.positions_ now
      = ({ passed := false, reason := "Order size exceeds limit" },
         e.risk_window) := by
    rw [riskCheck, if_pos hq]
  refine ⟨?_, ?_, by decide, ?_, ?_⟩ <;>
    simp [ExecutionEngine.submit_order, hrisk, hcb]

/-- C7 witness: the scenario instance `max_order_size = 100`,
`quantity = 200`. -/
theorem C7_oversize_rejected_witness :
    (c7_request.quantity > c7_engine.risk_limits.max_order_size ∧
      c7_request.has_callback = true) ∧
    ((c7_engine.submit_order c7_request 0).1 = false ∧
     (c7_engine.submit_order c7_request 0).2.2 =
       [{ order_id := 0, external_id := "", status := OrderStatus.REJECTED,
          filled_quantity := 0, fill_price := 0, remaining_quantity := 0,
          timestamp_ns := 0, message := "Order size exceeds limit" }] ∧
     strContainsSub "Order size exceeds limit" "size" = true ∧
     (c7_engine.submit_order c7_request 0).2.1.active_orders_ =
       c7_engine.active_orders_ ∧
     (c7_engine.submit_order c7_request 0).2.1.order_queue_ =
       c7_engine.order_queue_) :=
  ⟨⟨by decide, rfl⟩, C7_oversize_rejected c7_engine c7_request 0 (by decide) rfl⟩

/-! ### C8 — position and stats update on a fill -/

/-- Helper: looking up the updated key after `positions_[m] += d`. -/
theorem lookup_updatePos (l : List (String × Rat)) (m : String) (d : Rat) :
    ((updatePos l m d).lookup m).getD 0 = (l.lookup m).getD 0 + d := by
  induction l with
  | nil => simp [updatePos, List.lookup]
  | cons kv rest ih =>
    obtain ⟨k, v⟩ := kv
    by_cases hk : k = m
    · subst hk
      simp [updatePos, List.lookup]
    · have h1 : (m == k) = false := by
        simp [beq_eq_false_iff_ne]
        exact fun h => hk h.symm
      simp [updatePos, hk, List.lookup, h1, ih]

/-- Helper: `get` is lookup-with-default-0. -/
theorem PositionTracker.get_eq_lookup (p : PositionTracker) (m : String) :
    p.get m = (p.positions_.lookup m).getD 0 := by
  rw [PositionTracker.get]
  cases p.positions_.lookup m <;> rfl

/-- Helper: `update` changes the tracked position by exactly its delta. -/
theorem PositionTracker.get_update (p : PositionTracker) (m : String) (d : Rat) :
    (p.update m d).get m = p.get m + d := by
  rw [PositionTracker.get_eq_lookup, PositionTracker.get_eq_lookup]
  exact lookup_updatePos p.positions_ m d

/-- C8: when the report loop processes a `FILLED` report for an active
order, the tracked position of that order's market changes by exactly
`+filled_quantity` for a Buy and `−filled_quantity` for a Sell, and the
stats counters `orders_filled` and `total_volume` grow by 1 and by
`filled_quantity`. -/
theorem C8_filled_updates_position_and_stats (e : ExecutionEngine)
    (r : ExecutionReport) (o : Order)
    (ho : e.active_orders_ r.order_id = some o)
    (hs : r.status = OrderStatus.FILLED) :
    (e.process_report r).1.positions_.get o.market_id =
      e.positions_.get o.market_id +
        (if o.side = Side.BUY then r.filled_quantity else -r.filled_quantity) ∧
    (e.process_report r).1.stats_.orders_filled = e.stats_.orders_filled + 1 ∧
    (e.process_report r).1.stats_.total_volume
      = e.stats_.total_volume + r.filled_quantity := by
  have key : (e.process_report r).1.positions_ =
      e.positions_.update o.market_id
        (if o.side = Side.BUY then r.filled_quantity else -r.filled_quantity) ∧
      (e.process_report r).1.stats_.orders_filled = e.stats_.orders_filled + 1 ∧
      (e.process_report r).1.stats_.total_volume
        = e.stats_.total_volume + r.filled_quantity := by
    simp only [ExecutionEngine.process_report, ho, hs]
    by_cases hc : e.callbacks_ r.order_id = true <;> simp [hc]
  refine ⟨?_, key.2.1, key.2.2⟩
  rw [key.1, PositionTracker.get_update]

/-- C8 witness: spec scenario 4, a filled Buy of 10 on market "M". -/
theorem C8_filled_updates_position_and_stats_witness :
    (c8_engine.active_orders_ c8_report.order_id = some c8_order ∧
      c8_report.status = OrderStatus.FILLED) ∧
    ((c8_engine.process_report c8_report).1.positions_.get c8_order.market_id =
      c8_engine.positions_.get c8_order.market_id +
        (if c8_order.side = Side.BUY then c8_report.filled_quantity
         else -c8_report.filled_quantity) ∧
     (c8_engine.process_report c8_report).1.stats_.orders_filled =
       c8_engine.stats_.orders_filled + 1 ∧
     (c8_engine.process_report c8_report).1.stats_.total_volume =
       c8_engine.stats_.total_volume + c8_report.filled_quantity) :=
  ⟨⟨rfl, rfl⟩,
   C8_filled_updates_position_and_stats c8_engine c8_report c8_order rfl rfl⟩

/-! ### C6 — Kalshi parser totality and truncation -/

namespace KParse

theorem readChk_ok (data : List Nat) (off len : Nat) (h : off + len ≤ data.length) :
    readChk data off len = Except.ok ((data.drop off).take len) := by
  rw [readChk, if_pos h]

theorem parse_levels_total (data : List Nat) (n : Nat) :
    ∀ offset, ∃ r, parse_levels data n offset = Except.ok r := by
  induction n with
  | zero => exact fun offset => ⟨([], offset), rfl⟩
  | succ n ih =>
    intro offset
    by_cases h : offset + 16 ≤ data.length
    · obtain ⟨r, hr⟩ := ih (offset + 16)
      refine ⟨({ price := beVal ((data.drop offset).take 8),
                 size := beVal ((data.drop (offset + 8)).take 8) } :: r.1, r.2), ?_⟩
      simp only [parse_levels, if_pos h,
        readChk_ok data offset 8 (by omega),
        readChk_ok data (offset + 8) 8 (by omega), hr]
      rfl
    · exact ⟨([], offset), by simp only [parse_levels, if_neg h]⟩

theorem min_total_eq_none (mt : Nat) (h1 : mt ≠ 1) (h2 : mt ≠ 2) (h3 : mt ≠ 3) :
    min_total mt = none := by
  unfold min_total
  split <;> simp_all

theorem parse_header (data : List Nat) (ts : Int) (h8 : ¬ data.length < 8) :
    parse data ts =
      (if msg_type_of data = 1 then
        parse_quote data ts (beVal ((data.drop 4).take 4))
      else if msg_type_of data = 2 then
        parse_trade data ts (beVal ((data.drop 4).take 4))
      else if msg_type_of data = 3 then
        parse_book data ts (beVal ((data.drop 4).take 4))
      else Except.ok none) := by
  rw [parse, if_neg h8]
  simp only [readChk_ok data 0 2 (by omega), readChk_ok data 2 2 (by omega),
    readChk_ok data 4 4 (by omega), List.drop_zero]
  rfl


theorem ok_bind {ε α β : Type} (a : α) (f : α → Except ε β) :
    (Except.ok a : Except ε α) >>= f = f a := rfl

theorem parse_quote_short (data : List Nat) (ts : Int) (seq : Nat)
    (h : data.length < 56) : parse_quote data ts seq = Except.ok none := by
  rw [parse_quote, if_pos h]

theorem parse_quote_long (data : List Nat) (ts : Int) (seq : Nat)
    (h : ¬ data.length < 56) :
    parse_quote data ts seq = Except.ok (some (KMsg.quote
      { market_id := (data.drop 8).take 16,
        bid_price := beVal ((data.drop 24).take 8),
        ask_price := beVal ((data.drop 32).take 8),
        bid_size := beVal ((data.drop 40).take 8),
        ask_size := beVal ((data.drop 48).take 8),
        sequence := seq, timestamp_ns := ts })) := by
  rw [parse_quote, if_neg h]
  simp only [readChk_ok data 8 16 (by omega), readChk_ok data 24 8 (by omega),
    readChk_ok data 32 8 (by omega), readChk_ok data 40 8 (by omega),
    readChk_ok data 48 8 (by omega)]
  rfl

theorem parse_trade_short (data : List Nat) (ts : Int) (seq : Nat)
    (h : data.length < 48) : parse_trade data ts seq = Except.ok none := by
  rw [parse_trade, if_pos h]

theorem parse_trade_long (data : List Nat) (ts : Int) (seq : Nat)
    (h : ¬ data.length < 48) :
    parse_trade data ts seq = Except.ok (some (KMsg.trade
      { market_id := (data.drop 8).take 16,
        trade_id := toString seq,
        aggressor_side :=
          if beVal ((data.drop 24).take 1) = 0 then Side.BUY else Side.SELL,
        price := beVal ((data.drop 32).take 8),
        size := beVal ((data.drop 40).take 8),
        timestamp_ns := ts })) := by
  rw [parse_trade, if_neg h]
  simp only [readChk_ok data 8 16 (by omega), readChk_ok data 24 1 (by omega),
    readChk_ok data 32 8 (by omega), readChk_ok data 40 8 (by omega)]
  rfl

theorem parse_book_short (data : List Nat) (ts : Int) (seq : Nat)
    (h : data.length < 32) : parse_book data ts seq = Except.ok none := by
  rw [parse_book, if_pos h]

theorem parse_book_long (data : List Nat) (ts : Int) (seq : Nat)
    (h : ¬ data.length < 32) :
    ∃ b, parse_book data ts seq = Except.ok (some (KMsg.book b)) := by
  obtain ⟨r1, hr1⟩ := parse_levels_total data (beVal ((data.drop 24).take 2)) 28
  obtain ⟨r2, hr2⟩ := parse_levels_total data (beVal ((data.drop 26).take 2)) r1.2
  refine ⟨{ market_id := (data.drop 8).take 16, bids := r1.1, asks := r2.1,
            sequence := seq, timestamp_ns := ts }, ?_⟩
  rw [parse_book, if_neg h]
  simp only [readChk_ok data 8 16 (by omega), readChk_ok data 24 2 (by omega),
    readChk_ok data 26 2 (by omega), ok_bind, hr1, hr2]


/-- C6: the Kalshi frame parser is total and in-bounds: for every packet
it returns a value without ever attempting an out-of-bounds read
(`Except.ok`, never `Except.error` — every byte access is instrumented by
`readChk`), it returns empty for every packet shorter than the minimum for
its `msg_type` (56 for quote 0x0001, 48 for trade 0x0002, 32 for book
0x0003, 8 for the header itself), and it returns empty for every
unrecognised `msg_type`. -/
theorem C6_parser_total_and_min_lengths (data : List Nat) (ts : Int) :
    (∃ r, parse data ts = Except.ok r) ∧
    (∀ m, min_total (msg_type_of data) = some m →
      data.length < m → parse data ts = Except.ok none) ∧
    (min_total (msg_type_of data) = none →
      parse data ts = Except.ok none) := by
  by_cases h8 : data.length < 8
  · have hp : parse data ts = Except.ok none := by rw [parse, if_pos h8]
    exact ⟨⟨none, hp⟩, fun m _ _ => hp, fun _ => hp⟩
  · rw [parse_header data ts h8]
    by_cases m1 : msg_type_of data = 1
    · rw [if_pos m1, m1]
      by_cases h56 : data.length < 56
      · have hq := parse_quote_short data ts (beVal ((data.drop 4).take 4)) h56
        exact ⟨⟨none, hq⟩, fun m _ _ => hq,
          fun hnone => by simp [min_total] at hnone⟩
      · have hq := parse_quote_long data ts (beVal ((data.drop 4).take 4)) h56
        refine ⟨⟨_, hq⟩, ?_, fun hnone => by simp [min_total] at hnone⟩
        intro m hm hlen
        have hm56 : m = 56 := by
          simp only [min_total] at hm
          exact (Option.some.injEq _ _ ▸ hm).symm
        subst hm56
        exact absurd hlen h56
    · rw [if_neg m1]
      by_cases m2 : msg_type_of data = 2
      · rw [if_pos m2, m2]
        by_cases h48 : data.length < 48
        · have ht := parse_trade_short data ts (beVal ((data.drop 4).take 4)) h48
          exact ⟨⟨none, ht⟩, fun m _ _ => ht,
            fun hnone => by simp [min_total] at hnone⟩
        · have ht := parse_trade_long data ts (beVal ((data.drop 4).take 4)) h48
          refine ⟨⟨_, ht⟩, ?_, fun hnone => by simp [min_total] at hnone⟩
          intro m hm hlen
          have hm48 : m = 48 := by
            simp only [min_total] at hm
            exact (Option.some.injEq _ _ ▸ hm).symm
          subst hm48
          exact absurd hlen h48
      · rw [if_neg m2]
        by_cases m3 : msg_type_of data = 3
        · rw [if_pos m3, m3]
          by_cases h32 : data.length < 32
          · have hb := parse_book_short data ts (beVal ((data.drop 4).take 4)) h32
            exact ⟨⟨none, hb⟩, fun m _ _ => hb,
              fun hnone => by simp [min_total] at hnone⟩
          · obtain ⟨b, hb⟩ :=
              parse_book_long data ts (beVal ((data.drop 4).take 4)) h32
            refine ⟨⟨_, hb⟩, ?_, fun hnone => by simp [min_total] at hnone⟩
            intro m hm hlen
            have hm32 : m = 32 := by
              simp only [min_total] at hm
              exact (Option.some.injEq _ _ ▸ hm).symm
            subst hm32
            exact absurd hlen h32
        · rw [if_neg m3]
          have hn := min_total_eq_none (msg_type_of data) m1 m2 m3
          refine ⟨⟨none, rfl⟩, ?_, fun _ => rfl⟩
          intro m hm _
          simp [hn] at hm

end KParse

/-- C6 witness: a 40-byte quote frame (msg_type 0x0001, minimum 56)
parses to empty without an out-of-bounds read. -/
theorem C6_witness_truncated_quote :
    (KParse.min_total (KParse.msg_type_of c6_packet) = some 56 ∧
      c6_packet.length < 56) ∧
    KParse.parse c6_packet 0 = Except.ok none :=
  ⟨⟨by decide, by decide⟩,
   (KParse.C6_parser_total_and_min_lengths c6_packet 0).2.1 56 (by decide)
     (by decide)⟩

/-! ### C9 — callback eviction on terminal reports -/

/-- C9: the claim fails on the code.  The erase condition in `exec_loop`
(execution_engine.hpp lines 431-434) tests only `FILLED`, `CANCELLED`
and `REJECTED` — `ERROR` is missing although it is a terminal status.
For a report with status `ERROR` the registered callback is invoked but
REMAINS in the callback map. -/
theorem C9_error_status_keeps_callback :
    c9_report.status = OrderStatus.ERROR ∧
    (c9_engine.process_report c9_report).2 = [(7, c9_report)] ∧
    (c9_engine.process_report c9_report).1.callbacks_ 7 = true := by
  decide


/-! ### C10 — submit_order non-atomicity on a full queue -/

/-- Helper: the report loop never touches the order queue. -/
theorem process_report_order_queue (e : ExecutionEngine) (r : ExecutionReport) :
    (e.process_report r).1.order_queue_ = e.order_queue_ := by
  cases hA : e.active_orders_ r.order_id with
  | none =>
    simp only [ExecutionEngine.process_report, hA]
    split <;> rfl
  | some o =>
    simp only [ExecutionEngine.process_report, hA]
    repeat' split
    all_goals rfl

/-- Helper: the report loop never advances the id counter. -/
theorem process_report_next_id (e : ExecutionEngine) (r : ExecutionReport) :
    (e.process_report r).1.next_order_id_ = e.next_order_id_ := by
  cases hA : e.active_orders_ r.order_id with
  | none =>
    simp only [ExecutionEngine.process_report, hA]
    split <;> rfl
  | some o =>
    simp only [ExecutionEngine.process_report, hA]
    repeat' split
    all_goals rfl

/-- Helper: the report loop never inserts a new id into the
active-order map. -/
theorem process_report_active_none (e : ExecutionEngine) (r : ExecutionReport)
    (i : Nat) (hi : e.active_orders_ i = none) :
    (e.process_report r).1.active_orders_ i = none := by
  by_cases hir : i = r.order_id
  · subst hir
    simp only [ExecutionEngine.process_report, hi]
    split <;> exact hi
  · cases hA : e.active_orders_ r.order_id with
    | none =>
      simp only [ExecutionEngine.process_report, hA]
      split <;> exact hi
    | some o =>
      simp only [ExecutionEngine.process_report, hA]
      repeat' split
      all_goals simp [hir, hi]

/-- Helper: every engine step preserves queue well-formedness and id
freshness. -/
theorem step_preserves_fresh (e : ExecutionEngine) (id : Nat) (op : EngineOp)
    (hw : e.order_queue_.Wf) (hf : EngineIdFresh e id) :
    (e.step op).order_queue_.Wf ∧ EngineIdFresh (e.step op) id := by
  obtain ⟨hact, hque, hlt⟩ := hf
  cases op with
  | submit req now =>
    simp only [ExecutionEngine.step, ExecutionEngine.submit_order]
    by_cases hp : (riskCheck e.risk_limits e.risk_window req e.positions_ now).1.passed
    · simp only [hp, Bool.not_true, Bool.false_eq_true, if_neg, not_false_eq_true]
      by_cases hg : (e.order_queue_.tail + 1) % 16384 = e.order_queue_.head
      · obtain ⟨hb, hqe⟩ := LockFreeQueue.push_fail_spec e.order_queue_ _ hg
        rw [hqe]
        exact ⟨hw, hact, hque, show id < e.next_order_id_ + 1 by omega⟩
      · obtain ⟨hb, hwf2, hcont⟩ :=
          LockFreeQueue.push_spec e.order_queue_ hw _ hg
        refine ⟨hwf2, hact, ?_, show id < e.next_order_id_ + 1 by omega⟩
        intro o ho
        rw [hcont] at ho
        rcases List.mem_append.mp ho with h | h
        · exact hque o h
        · rcases List.mem_singleton.mp h with rfl
          simpa using Nat.ne_of_gt hlt
    · simp only [hp, Bool.not_false, if_pos]
      exact ⟨hw, hact, hque, hlt⟩
  | procOrder now =>
    simp only [ExecutionEngine.step, ExecutionEngine.process_order]
    by_cases hg : e.order_queue_.head = e.order_queue_.tail
    · obtain ⟨hb, hqe⟩ := LockFreeQueue.pop_fail_spec e.order_queue_ hg
      rw [hb, hqe]
      exact ⟨hw, hact, hque, hlt⟩
    · obtain ⟨hb, hwf2, hcont⟩ := LockFreeQueue.pop_spec e.order_queue_ hw hg
      rw [hb]
      have hhead :
          e.order_queue_.buf e.order_queue_.head ∈ e.order_queue_.contents := by
        rw [hcont]; exact List.mem_cons_self _ _
      have hne : id ≠ (e.order_queue_.buf e.order_queue_.head).internal_id :=
        fun h => hque _ hhead h.symm
      refine ⟨hwf2, ?_, ?_, hlt⟩
      · simp [hne, hact]
      · intro o ho
        have : o ∈ e.order_queue_.contents := by
          rw [hcont]; exact List.mem_cons_of_mem _ ho
        exact hque o this
  | procReport r =>
    simp only [ExecutionEngine.step]
    refine ⟨?_, process_report_active_none e r id hact, ?_, ?_⟩
    · show (e.process_report r).1.order_queue_.Wf
      rw [process_report_order_queue]
      exact hw
    · intro o ho
      rw [process_report_order_queue] at ho
      exact hque o ho
    · rw [process_report_next_id]
      exact hlt

/-- Helper: pushing onto a full ring fails and leaves it unchanged. -/
theorem try_push_full {C : Nat} {α : Type} (s : LockFreeQueue C α)
    (hg : (s.tail + 1) % C = s.head) (v : α) :
    s.try_push v = (false, s) := by
  simp [LockFreeQueue.try_push, hg]

/-- Helper: freshness is preserved along any run of engine steps. -/
theorem runSteps_preserves_fresh (ops : List EngineOp) (s : ExecutionEngine)
    (id : Nat) (hw : s.order_queue_.Wf) (hf : EngineIdFresh s id) :
    (s.runSteps ops).order_queue_.Wf ∧ EngineIdFresh (s.runSteps ops) id := by
  induction ops generalizing s with
  | nil => exact ⟨hw, hf⟩
  | cons op rest ih =>
    obtain ⟨hw2, hf2⟩ := step_preserves_fresh s id op hw hf
    exact ih (s.step op) hw2 hf2

/-- C10: `submit_order` is not atomic on queue-full failure: when the
risk check passes, the queue is full (16383 buffered) and the request has
a callback, it returns false, yet the id counter has advanced and the
callback is stored under the consumed id, while no order with that id is
in the active-order map — nor ever enters it under any later sequence of
engine steps. -/
theorem C10_submit_queue_full_not_atomic (e : ExecutionEngine)
    (req : OrderRequest) (now : Int)
    (hw : e.order_queue_.Wf)
    (hact : e.active_orders_ e.next_order_id_ = none)
    (hque : ∀ o ∈ e.order_queue_.contents, o.internal_id ≠ e.next_order_id_)
    (hpass : (riskCheck e.risk_limits e.risk_window req e.positions_ now).1.passed
      = true)
    (hfull : e.order_queue_.size = 16384 - 1)
    (hcb : req.has_callback = true) :
    (e.submit_order req now).1 = false ∧
    (e.submit_order req now).2.1.next_order_id_ = e.next_order_id_ + 1 ∧
    (e.submit_order req now).2.1.callbacks_ e.next_order_id_ = true ∧
    (e.submit_order req now).2.1.active_orders_ = e.active_orders_ ∧
    ∀ ops : List EngineOp,
      (((e.submit_order req now).2.1).runSteps ops).active_orders_
        e.next_order_id_ = none := by
  have hguard : (e.order_queue_.tail + 1) % 16384 = e.order_queue_.head :=
    (LockFreeQueue.push_guard_iff e.order_queue_ hw).mpr hfull
  have hred : e.submit_order req now =
      (false,
       { e with
         risk_window :=
           (riskCheck e.risk_limits e.risk_window req e.positions_ now).2,
         next_order_id_ := e.next_order_id_ + 1,
         callbacks_ :=
           fun i => if i = e.next_order_id_ then true else e.callbacks_ i,
         order_queue_ := e.order_queue_ },
       []) := by
    simp only [ExecutionEngine.submit_order, hpass, Bool.not_true,
      Bool.false_eq_true, if_neg, not_false_eq_true, hcb, if_pos,
      try_push_full e.order_queue_ hguard]
  rw [hred]
  refine ⟨rfl, rfl, by simp, rfl, ?_⟩
  intro ops
  exact (runSteps_preserves_fresh ops
    { e with
      risk_window :=
        (riskCheck e.risk_limits e.risk_window req e.positions_ now).2,
      next_order_id_ := e.next_order_id_ + 1,
      callbacks_ :=
        fun i => if i = e.next_order_id_ then true else e.callbacks_ i,
      order_queue_ := e.order_queue_ } e.next_order_id_ hw
    ⟨hact, hque, Nat.lt_succ_self _⟩).2.1

/-- C10 witness: a full queue, a passing request; the claim holds and the
id stays absent from the active-order map over a subsequent run. -/
theorem C10_witness :
    (c10_engine.order_queue_.Wf ∧
     c10_engine.active_orders_ c10_engine.next_order_id_ = none ∧
     (∀ o ∈ c10_engine.order_queue_.contents,
       o.internal_id ≠ c10_engine.next_order_id_) ∧
     (riskCheck c10_engine.risk_limits c10_engine.risk_window c10_request
       c10_engine.positions_ 0).1.passed = true ∧
     c10_engine.order_queue_.size = 16384 - 1 ∧
     c10_request.has_callback = true) ∧
    ((c10_engine.submit_order c10_request 0).1 = false ∧
     (c10_engine.submit_order c10_request 0).2.1.next_order_id_ =
       c10_engine.next_order_id_ + 1 ∧
     (c10_engine.submit_order c10_request 0).2.1.callbacks_
       c10_engine.next_order_id_ = true ∧
     (c10_engine.submit_order c10_request 0).2.1.active_orders_ =
       c10_engine.active_orders_ ∧
     ∀ ops : List EngineOp,
       ((c10_engine.submit_order c10_request 0).2.1.runSteps ops).active_orders_
         c10_engine.next_order_id_ = none) := by
  have hque : ∀ o ∈ c10_engine.order_queue_.contents,
      o.internal_id ≠ c10_engine.next_order_id_ := by
    intro o ho
    simp [LockFreeQueue.contents, c10_engine, ExecutionEngine.init] at ho
    obtain ⟨-, rfl⟩ := ho
    decide
  refine ⟨⟨⟨by decide, by decide⟩, rfl, hque, by decide, by decide, rfl⟩, ?_⟩
  exact C10_submit_queue_full_not_atomic c10_engine c10_request 0
    ⟨by decide, by decide⟩ rfl hque (by decide) (by decide) rfl


/-! ### C5 — SPSC queue FIFO and capacity -/

/-- C5: the SPSC queue run sequentially from empty, for every operation
sequence over a power-of-two capacity `C = 2^k`: the accepted pushed
values equal the popped values followed by the currently buffered values
(FIFO, no loss, no duplication); at most `C − 1` values are ever
buffered; `try_push` returns false exactly when `C − 1` values are
buffered; and after a pop of a non-empty queue a push succeeds again. -/
theorem C5_spsc_fifo_and_capacity (k : Nat) (α : Type) (d v : α)
    (ops : List (LockFreeQueue.SpscOp α)) :
    ((LockFreeQueue.run (LockFreeQueue.init (2 ^ k) d) ops).2.1 =
      (LockFreeQueue.run (LockFreeQueue.init (2 ^ k) d) ops).2.2 ++
        (LockFreeQueue.run (LockFreeQueue.init (2 ^ k) d) ops).1.contents) ∧
    (LockFreeQueue.run (LockFreeQueue.init (2 ^ k) d) ops).1.contents.length
      ≤ 2 ^ k - 1 ∧
    (((LockFreeQueue.run (LockFreeQueue.init (2 ^ k) d) ops).1.try_push v).1
        = false ↔
      (LockFreeQueue.run (LockFreeQueue.init (2 ^ k) d) ops).1.contents.length
        = 2 ^ k - 1) ∧
    ((LockFreeQueue.run (LockFreeQueue.init (2 ^ k) d) ops).1.contents.length
        ≠ 0 →
      ((((LockFreeQueue.run (LockFreeQueue.init (2 ^ k) d) ops).1.try_pop).2).try_push
          v).1 = true) := by
  have hC : 0 < 2 ^ k := pow_pos (by norm_num) k
  obtain ⟨hwf, heq⟩ :=
    LockFreeQueue.run_spec ops (LockFreeQueue.init (2 ^ k) d)
      (LockFreeQueue.wf_init hC d)
  rw [LockFreeQueue.contents_init] at heq
  set R := LockFreeQueue.run (LockFreeQueue.init (2 ^ k) d) ops with hR
  refine ⟨by simpa using heq, ?_, ?_, ?_⟩
  · rw [LockFreeQueue.length_contents]
    have := LockFreeQueue.size_lt R.1 hC
    omega
  · rw [LockFreeQueue.length_contents]
    exact (LockFreeQueue.try_push_false_iff R.1 v).trans
      (LockFreeQueue.push_guard_iff R.1 hwf)
  · intro hne
    rw [LockFreeQueue.length_contents] at hne
    have hht : R.1.head ≠ R.1.tail :=
      fun h => hne ((LockFreeQueue.pop_guard_iff R.1 hwf).mp h)
    obtain ⟨hpop, hwf2, hcont⟩ := LockFreeQueue.pop_spec R.1 hwf hht
    have hsz : R.1.size = (R.1.try_pop).2.size + 1 := by
      have h1 := LockFreeQueue.length_contents R.1
      have h2 := LockFreeQueue.length_contents (R.1.try_pop).2
      rw [hcont] at h1
      simp at h1
      omega
    have hguard :
        ¬ (((R.1.try_pop).2.tail + 1) % 2 ^ k = (R.1.try_pop).2.head) := by
      intro hg
      have hfull := (LockFreeQueue.push_guard_iff (R.1.try_pop).2 hwf2).mp hg
      have hlt := LockFreeQueue.size_lt R.1 hC
      omega
    exact (LockFreeQueue.push_spec (R.1.try_pop).2 hwf2 v hguard).1

/-- C5 witness: capacity 2 (k = 1), one accepted push; the buffer holds
1 = C − 1 value, a further push fails, and push succeeds after a pop. -/
theorem C5_witness :
    (LockFreeQueue.run (LockFreeQueue.init (2 ^ 1) (0 : Nat))
        [LockFreeQueue.SpscOp.push 1]).1.contents.length ≠ 0 ∧
    (((LockFreeQueue.run (LockFreeQueue.init (2 ^ 1) (0 : Nat))
        [LockFreeQueue.SpscOp.push 1]).2.1 =
      (LockFreeQueue.run (LockFreeQueue.init (2 ^ 1) (0 : Nat))
        [LockFreeQueue.SpscOp.push 1]).2.2 ++
        (LockFreeQueue.run (LockFreeQueue.init (2 ^ 1) (0 : Nat))
          [LockFreeQueue.SpscOp.push 1]).1.contents) ∧
     (LockFreeQueue.run (LockFreeQueue.init (2 ^ 1) (0 : Nat))
        [LockFreeQueue.SpscOp.push 1]).1.contents.length ≤ 2 ^ 1 - 1 ∧
     (((LockFreeQueue.run (LockFreeQueue.init (2 ^ 1) (0 : Nat))
          [LockFreeQueue.SpscOp.push 1]).1.try_push 5).1 = false ↔
       (LockFreeQueue.run (LockFreeQueue.init (2 ^ 1) (0 : Nat))
          [LockFreeQueue.SpscOp.push 1]).1.contents.length = 2 ^ 1 - 1) ∧
     ((LockFreeQueue.run (LockFreeQueue.init (2 ^ 1) (0 : Nat))
          [LockFreeQueue.SpscOp.push 1]).1.contents.length ≠ 0 →
       ((((LockFreeQueue.run (LockFreeQueue.init (2 ^ 1) (0 : Nat))
            [LockFreeQueue.SpscOp.push 1]).1.try_pop).2).try_push 5).1 = true)) :=
  ⟨by decide, C5_spsc_fifo_and_capacity 1 Nat 0 5 [LockFreeQueue.SpscOp.push 1]⟩

end Quantshit
